import Mathlib

/-!
Shallow embedding of `src/ng-app/app/config.service.ts` (TUXEDO Control
Center client-side `ConfigService`): the State Mirror (settings, default and
custom profile collections), the Edit Session (draft profile plus captured
index), and the Change Staging & Commit Pipeline operations
(`setActiveProfile`, `copyProfile`, `writeProfile`,
`writeCurrentEditingProfile`, `editProfileChanges`,
`setCurrentEditingProfile`).

JavaScript semantics embedded explicitly:
* `Array.prototype.findIndex` returns `-1` on miss (`jsFindIndex`);
* `arr[i]` reads out of bounds yield `undefined` (`jsIndexGet` yields
  `none`);
* `obj[k] = v` on a string-keyed object replaces or appends (`jsObjSet`);
* `JSON.stringify`-based comparison of two profile records (or a record
  against `undefined`) is structural equality on `Option TccProfile`;
* `copyConfig` (a JSON round trip) is a deep copy: in the value-level model
  it is the identity, while the reference-level model (`RefModel`) tracks
  aliasing through an explicit heap to distinguish returning a stored
  reference from returning a fresh copy.

The privilege-escalation helper (`pkexec`d daemon invocation) is external:
its success outcome is an oracle parameter `escOk`, and each operation
reports the payload it staged for the helper (or `none` when it never
invoked it). `updateConfigData` refreshes the mirror from the push channel
and settings file, modelled by an environment `Env`.
-/

/-- Profile record: the code inspects only `name`; every other field takes
part only in deep copies and structural (stringify) comparison, abstracted
as an opaque `data` component. -/
structure TccProfile where
  name : String
  data : String
deriving DecidableEq

/-- Settings record: the code manipulates only `stateMap`, a string-keyed
object from state id to profile name, kept as an association list in key
insertion order (JS object key order). -/
structure TccSettings where
  stateMap : List (String × String)
deriving DecidableEq

/-- Environment: the latest values the push channel / settings file deliver,
read by `updateConfigData`. -/
structure Env where
  dbusCustomProfiles : List TccProfile
  fileSettings : TccSettings
deriving DecidableEq

/-- Mutable fields of `ConfigService` the modelled operations touch.
`currentProfileEdit = none` is the JS `undefined` (idle edit session);
`currentProfileEditIndex` is a JS number, `-1` meaning "not found". -/
structure ConfigState where
  defaultProfiles : List TccProfile
  customProfiles : List TccProfile
  settings : TccSettings
  currentProfileEdit : Option TccProfile
  currentProfileEditIndex : Int
deriving DecidableEq

/-- Payload handed to the escalation helper: `--new_settings` and/or
`--new_profiles`. -/
structure StagedPayload where
  stagedSettings : Option TccSettings
  stagedProfiles : Option (List TccProfile)
deriving DecidableEq

/-- First index satisfying `p`, as `Option Nat`. -/
def jsFindIndexNat (p : α → Bool) : List α → Option Nat
  | [] => none
  | a :: l => if p a then some 0 else (jsFindIndexNat p l).map (fun i => i + 1)

/-- JS `Array.prototype.findIndex`: first matching index, `-1` on miss. -/
def jsFindIndex (p : α → Bool) (l : List α) : Int :=
  match jsFindIndexNat p l with
  | some i => (i : Int)
  | none => -1

/-- JS `arr[i]` read with a number index: `undefined` outside bounds. -/
def jsIndexGet (l : List α) (i : Int) : Option α :=
  if 0 ≤ i then l.get? i.toNat else none

/-- JS `arr[i] = v`. A negative index stores a non-element property, leaving
the array's elements unchanged; the modelled code only assigns indices it
obtained from `findIndex` hits, which are in bounds (`List.set` is likewise
the identity past the end). -/
def jsSetAt (l : List α) (i : Int) (v : α) : List α :=
  if 0 ≤ i then l.set i.toNat v else l

/-- JS `obj[k]` read on a string-keyed object. -/
def jsObjGet (m : List (String × String)) (k : String) : Option String :=
  match m with
  | [] => none
  | (k', v') :: rest => if k' = k then some v' else jsObjGet rest k

/-- JS `obj[k] = v` on a string-keyed object: overwrite in place or append. -/
def jsObjSet (m : List (String × String)) (k v : String) : List (String × String) :=
  match m with
  | [] => [(k, v)]
  | (k', v') :: rest => if k' = k then (k, v) :: rest else (k', v') :: jsObjSet rest k v

namespace ConfigService

/-- `updateConfigData()`: refresh the State Mirror from the push channel's
latest custom profiles and the settings file; default profiles and the edit
session are untouched. -/
def updateConfigData (env : Env) (st : ConfigState) : ConfigState :=
  { st with customProfiles := env.dbusCustomProfiles, settings := env.fileSettings }

/-- `getSettings()`: returns the stored settings (the reference-level model
`RefModel.getSettings` records that this is the stored object itself). -/
def getSettings (st : ConfigState) : TccSettings :=
  st.settings

/-- `getCustomProfiles()`: returns the stored custom-profile collection. -/
def getCustomProfiles (st : ConfigState) : List TccProfile :=
  st.customProfiles

/-- `getAllProfiles()`: default profiles concatenated with custom ones. -/
def getAllProfiles (st : ConfigState) : List TccProfile :=
  st.defaultProfiles ++ getCustomProfiles st

/-- `getProfileByName(name)`: first profile of that name among all profiles,
deep-copied on hit, `undefined` on miss. -/
def getProfileByName (st : ConfigState) (searchedProfileName : String) : Option TccProfile :=
  (getAllProfiles st).find? (fun profile => profile.name == searchedProfileName)

/-- `getCustomProfileByName(name)`: as `getProfileByName` but custom only. -/
def getCustomProfileByName (st : ConfigState) (searchedProfileName : String) : Option TccProfile :=
  (getCustomProfiles st).find? (fun profile => profile.name == searchedProfileName)

/-- `getCurrentEditingProfile()`: the draft, `undefined` when idle. -/
def getCurrentEditingProfile (st : ConfigState) : Option TccProfile :=
  st.currentProfileEdit

/-- `editProfileChanges()`: `false` when no draft is chosen; otherwise the
`JSON.stringify` comparison of the draft against
`customProfiles[currentProfileEditIndex]` (which is `undefined` when the
captured index is out of bounds), i.e. structural inequality on
`Option TccProfile`. -/
def editProfileChanges (st : ConfigState) : Bool :=
  match st.currentProfileEdit with
  | none => false
  | some draft =>
    decide (some draft ≠ jsIndexGet st.customProfiles st.currentProfileEditIndex)

/-- Shared tail of `setCurrentEditingProfile(name)`: store the `findIndex`
result in `currentProfileEditIndex` (also on a miss, via the chained
assignment `const index = this.currentProfileEditIndex = ...findIndex(...)`),
return `false` on a miss without touching the draft, and otherwise capture a
deep copy of the found profile as the draft. -/
def setCurrentEditingProfileFind (st1 : ConfigState) (p : TccProfile → Bool) :
    Bool × ConfigState :=
  match jsFindIndexNat p st1.customProfiles with
  | none => (false, { st1 with currentProfileEditIndex := -1 })
  | some index =>
    (true, { st1 with
      currentProfileEditIndex := (index : Int),
      currentProfileEdit := st1.customProfiles.get? index })

/-- `setCurrentEditingProfile(name)`: when the argument is `undefined`
(`none`) the session is first cleared, and the subsequent lookup
`e.name === undefined` can match nothing (profile names are strings); with
a defined name the lookup is by name, and on a miss the draft is NOT
cleared — only the captured index is reset to `-1`. -/
def setCurrentEditingProfile (st : ConfigState) (customProfileName : Option String) :
    Bool × ConfigState :=
  match customProfileName with
  | none =>
    setCurrentEditingProfileFind
      { st with currentProfileEditIndex := -1, currentProfileEdit := none }
      (fun _ => false)
  | some n => setCurrentEditingProfileFind st (fun e => e.name == n)

/-- `setActiveProfile(profileName, stateId)`: copy the settings, remap the
state, stage the settings alone, escalate synchronously (its result is
ignored), then unconditionally refresh the mirror. Returns the staged
payload and the state after the call; no error indicator is produced. -/
def setActiveProfile (env : Env) (escOk : Bool) (st : ConfigState)
    (profileName stateId : String) : StagedPayload × ConfigState :=
  let newSettings : TccSettings :=
    { stateMap := jsObjSet (getSettings st).stateMap stateId profileName }
  ({ stagedSettings := some newSettings, stagedProfiles := none },
   updateConfigData env st)

/-- `copyProfile(profileName, newProfileName)`: fail (no staging, no
escalation) when the source is absent or the new name already exists;
otherwise stage the custom collection with the renamed deep copy appended,
escalate, refresh exactly on success, and return the escalation result. -/
def copyProfile (env : Env) (escOk : Bool) (st : ConfigState)
    (profileName newProfileName : String) :
    Bool × Option StagedPayload × ConfigState :=
  match getProfileByName st profileName with
  | none => (false, none, st)
  | some profileToCopy =>
    match getProfileByName st newProfileName with
    | some _ => (false, none, st)
    | none =>
      let newProfile : TccProfile := { profileToCopy with name := newProfileName }
      let newProfileList := getCustomProfiles st ++ [newProfile]
      (escOk,
       some { stagedSettings := none, stagedProfiles := some newProfileList },
       if escOk then updateConfigData env st else st)

/-- `writeCurrentEditingProfile()`: `false` with no staging and no
escalation when `editProfileChanges()` is false; otherwise overwrite the
captured index in a copy of the custom collection with the draft, stage the
profiles alone, escalate synchronously, refresh exactly on success, and
return the escalation result. The inner `none` branch is unreachable:
`editProfileChanges` returns `true` only with a draft present. -/
def writeCurrentEditingProfile (env : Env) (escOk : Bool) (st : ConfigState) :
    Bool × Option StagedPayload × ConfigState :=
  if editProfileChanges st then
    match getCurrentEditingProfile st with
    | some draft =>
      let changedCustomProfiles :=
        jsSetAt st.customProfiles st.currentProfileEditIndex draft
      (escOk,
       some { stagedSettings := none, stagedProfiles := some changedCustomProfiles },
       if escOk then updateConfigData env st else st)
    | none => (false, none, st)
  else
    (false, none, st)

/-- `writeProfile(currentProfileName, profile, states?)`: compute the three
`findIndex` checks, overwrite the resolved index in a copy of the custom
collection only when permitted, remap every given state to `profile.name`
in a copy of the settings, stage both payloads, escalate asynchronously,
refresh exactly on success, and resolve with the escalation result. -/
def writeProfile (env : Env) (escOk : Bool) (st : ConfigState)
    (currentProfileName : String) (profile : TccProfile)
    (states : Option (List String)) :
    Bool × StagedPayload × ConfigState :=
  let profileIndex := jsFindIndex (fun p => p.name == currentProfileName) st.customProfiles
  let existingDefaultProfileWithNewName :=
    jsFindIndex (fun p => p.name == profile.name) st.defaultProfiles
  let exisitingCustomProfileWithNewName :=
    jsFindIndex (fun p => p.name == profile.name) st.customProfiles
  let willOverwriteProfile : Bool :=
    profileIndex != -1
    && existingDefaultProfileWithNewName == -1
    && (exisitingCustomProfileWithNewName == -1
        || exisitingCustomProfileWithNewName == profileIndex)
  let customProfilesCopy :=
    if willOverwriteProfile then jsSetAt st.customProfiles profileIndex profile
    else st.customProfiles
  let newStateMap :=
    match states with
    | none => (getSettings st).stateMap
    | some stateIds =>
      stateIds.foldl (fun m stateId => jsObjSet m stateId profile.name)
        (getSettings st).stateMap
  let newSettings : TccSettings := { stateMap := newStateMap }
  (escOk,
   { stagedSettings := some newSettings, stagedProfiles := some customProfilesCopy },
   if escOk then updateConfigData env st else st)

/-- The `willOverwriteProfile` condition of `writeProfile`, as a predicate
over the mirror (`newName` is the incoming `profile.name`). -/
def willOverwriteCheck (st : ConfigState) (currentProfileName newName : String) : Bool :=
  jsFindIndex (fun p => p.name == currentProfileName) st.customProfiles != -1
  && jsFindIndex (fun p => p.name == newName) st.defaultProfiles == -1
  && (jsFindIndex (fun p => p.name == newName) st.customProfiles == -1
      || jsFindIndex (fun p => p.name == newName) st.customProfiles
         == jsFindIndex (fun p => p.name == currentProfileName) st.customProfiles)

end ConfigService

namespace RefModel

/-!
Reference-level model of the accessors, for the copy-isolation claim: JS
objects live in an explicit heap, addresses are indices into the heap, and
an accessor either returns a stored address (aliasing: a write through the
returned reference reaches the mirror) or allocates a fresh cell holding a
copy of the value (`copyConfig`, a JSON round trip). `getSettings` and
`getCustomProfiles` return the stored references, `getAllProfiles` builds a
fresh array over the stored references, and the name lookups deep-copy
their hit.
-/

/-- Heap of JS objects of one type: addresses are list indices, allocation
appends. -/
structure Heap (α : Type) where
  cells : List α
deriving DecidableEq

/-- Dereference an address. -/
def Heap.read (h : Heap α) (a : Nat) : Option α :=
  h.cells.get? a

/-- Mutate the object at an address in place. -/
def Heap.write (h : Heap α) (a : Nat) (v : α) : Heap α :=
  { cells := h.cells.set a v }

/-- Allocate a fresh object, returning the new heap and its address. -/
def Heap.alloc (h : Heap α) (v : α) : Heap α × Nat :=
  ({ cells := h.cells ++ [v] }, h.cells.length)

/-- The State Mirror's stored references: the settings object and the two
profile arrays (as lists of element addresses into the profile heap). -/
structure MirrorRefs where
  settingsAddr : Nat
  defaultAddrs : List Nat
  customAddrs : List Nat
deriving DecidableEq

/-- `getSettings()` returns `this.settings`: the stored reference itself. -/
def getSettings (m : MirrorRefs) : Nat :=
  m.settingsAddr

/-- `getCustomProfiles()` returns `this.customProfiles`: the stored element
references. -/
def getCustomProfiles (m : MirrorRefs) : List Nat :=
  m.customAddrs

/-- `getAllProfiles()` builds a fresh array (`concat`) whose elements are
the stored references. -/
def getAllProfiles (m : MirrorRefs) : List Nat :=
  m.defaultAddrs ++ getCustomProfiles m

/-- `getProfileByName(name)`: find the first profile reference whose target
has the searched name, and on a hit allocate a deep copy (`copyConfig`) and
return the fresh reference. -/
def getProfileByName (ph : Heap TccProfile) (m : MirrorRefs) (searchedProfileName : String) :
    Heap TccProfile × Option Nat :=
  match (getAllProfiles m).find?
      (fun a => ((ph.read a).map (fun p => p.name == searchedProfileName)).getD false) with
  | none => (ph, none)
  | some a =>
    match ph.read a with
    | none => (ph, none)
    | some p =>
      let alloced := ph.alloc p
      (alloced.1, some alloced.2)

/-- `getCustomProfileByName(name)`: as `getProfileByName`, custom only. -/
def getCustomProfileByName (ph : Heap TccProfile) (m : MirrorRefs) (searchedProfileName : String) :
    Heap TccProfile × Option Nat :=
  match (getCustomProfiles m).find?
      (fun a => ((ph.read a).map (fun p => p.name == searchedProfileName)).getD false) with
  | none => (ph, none)
  | some a =>
    match ph.read a with
    | none => (ph, none)
    | some p =>
      let alloced := ph.alloc p
      (alloced.1, some alloced.2)

/-- Well-formed mirror: every stored profile reference points into the
profile heap. -/
def MirrorRefs.wf (m : MirrorRefs) (ph : Heap TccProfile) : Prop :=
  ∀ b ∈ m.defaultAddrs ++ m.customAddrs, b < ph.cells.length

end RefModel

/-! Concrete fixtures used to instantiate the theorems. -/

/-- Custom profile named "A". -/
def profileA : TccProfile := { name := "A", data := "a0" }

/-- Custom profile named "B". -/
def profileB : TccProfile := { name := "B", data := "b0" }

/-- An edited variant of `profileA`: same name, changed fields. -/
def profileA1 : TccProfile := { name := "A", data := "a1" }

/-- A built-in profile. -/
def builtinOffice : TccProfile := { name := "Office", data := "office" }

/-- Push-channel environment used by the fixtures. -/
def envW : Env :=
  { dbusCustomProfiles := [profileA, profileB]
    fileSettings := { stateMap := [("AC", "A")] } }

/-- Idle-session mirror state: one built-in, two custom profiles. -/
def stW : ConfigState :=
  { defaultProfiles := [builtinOffice]
    customProfiles := [profileA, profileB]
    settings := { stateMap := [("AC", "Office")] }
    currentProfileEdit := none
    currentProfileEditIndex := -1 }

/-- Editing-session mirror state: draft `profileA1` captured at index 0. -/
def stEditW : ConfigState :=
  { stW with currentProfileEdit := some profileA1, currentProfileEditIndex := 0 }

/-! Helper lemmas about the embedded JS primitives. -/

theorem jsFindIndexNat_eq_none_iff (p : α → Bool) (l : List α) :
    jsFindIndexNat p l = none ↔ ∀ x ∈ l, p x = false := by
  induction l with
  | nil => simp [jsFindIndexNat]
  | cons a l ih =>
    by_cases h : p a
    · simp [jsFindIndexNat, h]
    · rw [Bool.not_eq_true] at h
      simp only [jsFindIndexNat, h, Bool.false_eq_true, if_false, Option.map_eq_none']
      rw [ih]
      constructor
      · intro hall x hx
        rcases List.mem_cons.mp hx with rfl | hx
        · exact h
        · exact hall x hx
      · intro hall x hx
        exact hall x (List.mem_cons_of_mem a hx)

theorem jsFindIndexNat_get (p : α → Bool) (l : List α) (i : Nat)
    (h : jsFindIndexNat p l = some i) :
    ∃ x, l.get? i = some x ∧ p x = true := by
  induction l generalizing i with
  | nil => simp [jsFindIndexNat] at h
  | cons a l ih =>
    by_cases ha : p a
    · simp only [jsFindIndexNat, if_pos ha, Option.some.injEq] at h
      exact ⟨a, by simp [← h], ha⟩
    · simp only [jsFindIndexNat, if_neg ha, Option.map_eq_some'] at h
      obtain ⟨j, hj, rfl⟩ := h
      obtain ⟨x, hx, hpx⟩ := ih j hj
      exact ⟨x, by simpa using hx, hpx⟩

theorem jsFindIndexNat_lt_length (p : α → Bool) (l : List α) (i : Nat)
    (h : jsFindIndexNat p l = some i) : i < l.length := by
  obtain ⟨x, hx, _⟩ := jsFindIndexNat_get p l i h
  exact List.get?_eq_some.mp hx |>.1

theorem jsFindIndex_eq_neg_one_iff (p : α → Bool) (l : List α) :
    jsFindIndex p l = -1 ↔ jsFindIndexNat p l = none := by
  cases h : jsFindIndexNat p l with
  | none => simp [jsFindIndex, h]
  | some i =>
    have hne : ((i : Int)) ≠ -1 := by omega
    simp [jsFindIndex, h, hne]

theorem jsFindIndex_of_nat (p : α → Bool) (l : List α) (i : Nat)
    (h : jsFindIndexNat p l = some i) : jsFindIndex p l = (i : Int) := by
  simp [jsFindIndex, h]

/-- Under distinct mapped values, positions holding equal mapped values
coincide. -/
theorem nodup_map_get?_inj (f : α → β) (l : List α)
    (hnodup : (l.map f).Nodup) (i j : Nat) (a b : α)
    (ha : l.get? i = some a) (hb : l.get? j = some b) (hf : f a = f b) :
    i = j := by
  have hlen_i : i < l.length := (List.get?_eq_some.mp ha).1
  have hlen_j : j < l.length := (List.get?_eq_some.mp hb).1
  have hmi : (l.map f).get? i = some (f a) := by
    rw [List.get?_map, ha]; rfl
  have hmj : (l.map f).get? j = some (f b) := by
    rw [List.get?_map, hb]; rfl
  have : (l.map f).get? i = (l.map f).get? j := by rw [hmi, hmj, hf]
  exact List.get?_inj (by simpa using hlen_i) hnodup this

theorem jsObjGet_jsObjSet_self (m : List (String × String)) (k v : String) :
    jsObjGet (jsObjSet m k v) k = some v := by
  induction m with
  | nil => simp [jsObjGet, jsObjSet]
  | cons kv rest ih =>
    obtain ⟨k', v'⟩ := kv
    by_cases h : k' = k
    · simp [jsObjGet, jsObjSet, h]
    · simp [jsObjGet, jsObjSet, h, ih]

theorem jsObjGet_jsObjSet_ne (m : List (String × String)) (k v k' : String)
    (h : k' ≠ k) : jsObjGet (jsObjSet m k v) k' = jsObjGet m k' := by
  induction m with
  | nil =>
    have hkk : ¬ k = k' := fun hk => h hk.symm
    simp [jsObjGet, jsObjSet, hkk]
  | cons kv rest ih =>
    obtain ⟨k0, v0⟩ := kv
    by_cases h0 : k0 = k
    · have hkk : ¬ k = k' := fun hk => h hk.symm
      have h0k : ¬ k0 = k' := by rw [h0]; exact hkk
      simp [jsObjGet, jsObjSet, h0, hkk, h0k]
    · by_cases h1 : k0 = k'
      · simp [jsObjGet, jsObjSet, h0, h1, h]
      · simp [jsObjGet, jsObjSet, h0, h1, ih]

theorem jsObjGet_foldl_jsObjSet (ss : List String) (v : String)
    (m0 : List (String × String)) (k : String) :
    jsObjGet (ss.foldl (fun m sid => jsObjSet m sid v) m0) k
      = if k ∈ ss then some v else jsObjGet m0 k := by
  induction ss generalizing m0 with
  | nil => simp
  | cons s rest ih =>
    simp only [List.foldl_cons, ih, List.mem_cons]
    by_cases hk : k ∈ rest
    · simp [hk]
    · by_cases hks : k = s
      · simp [hk, hks, jsObjGet_jsObjSet_self]
      · simp [hk, hks, jsObjGet_jsObjSet_ne _ _ _ _ hks]

theorem jsIndexGet_ofNat (l : List α) (i : Nat) :
    jsIndexGet l (i : Int) = l.get? i := by
  simp [jsIndexGet]

theorem jsSetAt_ofNat (l : List α) (i : Nat) (v : α) :
    jsSetAt l (i : Int) v = l.set i v := by
  simp [jsSetAt]

theorem intNatBneNegOne (i : Nat) : ((i : Int) != -1) = true := by
  have : (i : Int) ≠ -1 := by omega
  simp [bne, this]

theorem intNatBeqNegOne (i : Nat) : ((i : Int) == -1) = false := by
  have : (i : Int) ≠ -1 := by omega
  simp [this]

theorem intNatBeqNat (i j : Nat) : ((i : Int) == (j : Int)) = decide (i = j) := by
  by_cases h : i = j
  · simp [h]
  · have : (i : Int) ≠ (j : Int) := by omega
    simp [h, this]

/-- Zeta-expanded form of `writeProfile`, with the overwrite condition named. -/
theorem writeProfile_eq (env : Env) (escOk : Bool) (st : ConfigState)
    (currentProfileName : String) (profile : TccProfile) (states : Option (List String)) :
    ConfigService.writeProfile env escOk st currentProfileName profile states =
      (escOk,
       { stagedSettings := some { stateMap :=
           match states with
           | none => st.settings.stateMap
           | some stateIds =>
             stateIds.foldl (fun m stateId => jsObjSet m stateId profile.name)
               st.settings.stateMap }
         stagedProfiles := some (
           if ConfigService.willOverwriteCheck st currentProfileName profile.name then
             jsSetAt st.customProfiles
               (jsFindIndex (fun p => p.name == currentProfileName) st.customProfiles) profile
           else st.customProfiles) },
       if escOk then ConfigService.updateConfigData env st else st) := rfl

/-- Characterization of the `willOverwriteProfile` condition in terms of the
spec's three checks, assuming no two custom profiles share a name. -/
theorem willOverwriteCheck_iff (st : ConfigState) (currentProfileName newName : String)
    (hnodup : (st.customProfiles.map TccProfile.name).Nodup) :
    ConfigService.willOverwriteCheck st currentProfileName newName = true ↔
      ∃ i, jsFindIndexNat (fun p => p.name == currentProfileName) st.customProfiles = some i
        ∧ (∀ q ∈ st.defaultProfiles, q.name ≠ newName)
        ∧ (∀ j q, st.customProfiles.get? j = some q → q.name = newName → j = i) := by
  unfold ConfigService.willOverwriteCheck
  cases hP : jsFindIndexNat (fun p => p.name == currentProfileName) st.customProfiles with
  | none =>
    rw [(jsFindIndex_eq_neg_one_iff _ _).mpr hP]
    simp
  | some i =>
    rw [jsFindIndex_of_nat _ _ _ hP]
    have hDefIff : (jsFindIndex (fun p => p.name == newName) st.defaultProfiles == -1) = true
        ↔ (∀ q ∈ st.defaultProfiles, q.name ≠ newName) := by
      rw [beq_iff_eq, jsFindIndex_eq_neg_one_iff, jsFindIndexNat_eq_none_iff]
      constructor
      · intro hall q hq
        have := hall q hq
        simpa using this
      · intro hall q hq
        simpa using hall q hq
    cases hQc : jsFindIndexNat (fun p => p.name == newName) st.customProfiles with
    | none =>
      rw [jsFindIndex_eq_neg_one_iff (fun p => p.name == newName) st.customProfiles |>.mpr hQc]
      have hnone : ∀ j q, st.customProfiles.get? j = some q → q.name = newName → j = i := by
        intro j q hjq hname
        have hmem : q ∈ st.customProfiles := List.get?_mem hjq
        have := (jsFindIndexNat_eq_none_iff _ _).mp hQc q hmem
        simp [hname] at this
      constructor
      · intro hb
        refine ⟨i, rfl, ?_, hnone⟩
        have := Bool.and_eq_true .. |>.mp (Bool.and_eq_true .. |>.mp hb).1
        exact hDefIff.mp this.2
      · intro ⟨i', hi', hdef, _⟩
        have hii : i' = i := (Option.some_inj.mp hi').symm
        simp only [intNatBneNegOne, Bool.true_and]
        rw [Bool.and_eq_true]
        exact ⟨hDefIff.mpr hdef, by simp [intNatBeqNegOne]⟩
    | some j0 =>
      rw [jsFindIndex_of_nat _ _ _ hQc]
      obtain ⟨x0, hx0get, hx0p⟩ := jsFindIndexNat_get _ _ _ hQc
      have hx0name : x0.name = newName := by simpa using hx0p
      constructor
      · intro hb
        have hb1 := (Bool.and_eq_true .. |>.mp hb).1
        have hb2 := (Bool.and_eq_true .. |>.mp hb).2
        have hdef := hDefIff.mp (Bool.and_eq_true .. |>.mp hb1).2
        have hji : j0 = i := by
          rcases Bool.or_eq_true .. |>.mp hb2 with h1 | h1
          · rw [intNatBeqNegOne] at h1; cases h1
          · rw [intNatBeqNat] at h1; exact of_decide_eq_true h1
        refine ⟨i, rfl, hdef, ?_⟩
        intro j q hjq hname
        have := nodup_map_get?_inj TccProfile.name st.customProfiles hnodup j j0 q x0
          hjq hx0get (by rw [hname, hx0name])
        rw [this, hji]
      · intro ⟨i', hi', hdef, hany⟩
        have hii : i' = i := (Option.some_inj.mp hi').symm
        subst hii
        have hji : j0 = i' := hany j0 x0 hx0get hx0name
        simp only [intNatBneNegOne, Bool.true_and]
        rw [Bool.and_eq_true]
        refine ⟨hDefIff.mpr hdef, ?_⟩
        rw [Bool.or_eq_true, intNatBeqNat]
        exact Or.inr (decide_eq_true hji)

/-! Heap lemmas for the reference-level model. -/

theorem RefModel.Heap.read_write_ne (h : RefModel.Heap α) (a b : Nat) (v : α)
    (hne : a ≠ b) : (h.write a v).read b = h.read b := by
  unfold RefModel.Heap.read RefModel.Heap.write
  exact List.get?_set_ne v h.cells hne

theorem RefModel.Heap.read_alloc_lt (h : RefModel.Heap α) (v : α) (b : Nat)
    (hb : b < h.cells.length) : (h.alloc v).1.read b = h.read b := by
  unfold RefModel.Heap.read RefModel.Heap.alloc
  exact List.get?_append hb

/-- On a hit, the name lookups return a freshly allocated copy: its address
is the pre-allocation heap size, past every well-formed stored address. -/
theorem RefModel.getProfileByName_fresh (ph : RefModel.Heap TccProfile) (m : RefModel.MirrorRefs)
    (n : String) (a : Nat) (h : (RefModel.getProfileByName ph m n).2 = some a) :
    a = ph.cells.length ∧
      ∀ b < ph.cells.length, (RefModel.getProfileByName ph m n).1.read b = ph.read b := by
  unfold RefModel.getProfileByName at h ⊢
  cases hfind : (RefModel.getAllProfiles m).find?
      (fun a => ((ph.read a).map (fun p => p.name == n)).getD false) with
  | none => rw [hfind] at h; cases h
  | some a0 =>
    rw [hfind] at h
    dsimp only at h ⊢
    cases hread : ph.read a0 with
    | none => rw [hread] at h; dsimp only at h; cases h
    | some p =>
      rw [hread] at h
      dsimp only at h ⊢
      have ha : a = ph.cells.length := by
        simpa [RefModel.Heap.alloc] using h.symm
      exact ⟨ha, fun b hb => RefModel.Heap.read_alloc_lt ph p b hb⟩

/-- Same freshness for the custom-only lookup. -/
theorem RefModel.getCustomProfileByName_fresh (ph : RefModel.Heap TccProfile)
    (m : RefModel.MirrorRefs) (n : String) (a : Nat)
    (h : (RefModel.getCustomProfileByName ph m n).2 = some a) :
    a = ph.cells.length ∧
      ∀ b < ph.cells.length, (RefModel.getCustomProfileByName ph m n).1.read b = ph.read b := by
  unfold RefModel.getCustomProfileByName at h ⊢
  cases hfind : (RefModel.getCustomProfiles m).find?
      (fun a => ((ph.read a).map (fun p => p.name == n)).getD false) with
  | none => rw [hfind] at h; cases h
  | some a0 =>
    rw [hfind] at h
    dsimp only at h ⊢
    cases hread : ph.read a0 with
    | none => rw [hread] at h; dsimp only at h; cases h
    | some p =>
      rw [hread] at h
      dsimp only at h ⊢
      have ha : a = ph.cells.length := by
        simpa [RefModel.Heap.alloc] using h.symm
      exact ⟨ha, fun b hb => RefModel.Heap.read_alloc_lt ph p b hb⟩

/-! Additional fixture objects for the reference-level model. -/

/-! Claim theorems. -/

/-- C1 (counterexample): `getSettings` returns the stored Settings
reference itself, not a deep copy: writing through the returned reference
changes the value a subsequent `getSettings` access yields, and changes the
State Mirror's stored Settings. Concretely, with the stored Settings
`{stateMap: {AC: Office}}` at address 0, mutating the object returned by
`getSettings` to `{stateMap: {AC: Quiet}}` makes the next `getSettings`
dereference yield the mutated value. -/
theorem C1_getSettings_alias_counterexample :
    (RefModel.Heap.write { cells := ([{ stateMap := [("AC", "Office")] }] : List TccSettings) }
        (RefModel.getSettings { settingsAddr := 0, defaultAddrs := [], customAddrs := [] })
        { stateMap := [("AC", "Quiet")] }).read
      (RefModel.getSettings { settingsAddr := 0, defaultAddrs := [], customAddrs := [] })
      ≠ some { stateMap := [("AC", "Office")] } := by decide

/-- C1 (amended): `getProfileByName` and `getCustomProfileByName` return
defensive deep copies — the returned reference is freshly allocated,
distinct from every stored profile reference, and mutating it leaves every
stored profile unchanged. `getSettings` and `getCustomProfiles`, however,
return the stored references themselves, and `getAllProfiles` a fresh array
over the stored references, so mutating those returned objects does mutate
the State Mirror's stored state. -/
theorem C1_amended_copy_isolation (ph : RefModel.Heap TccProfile)
    (m : RefModel.MirrorRefs) (n : String) (hwf : m.wf ph) :
    (∀ a v, (RefModel.getProfileByName ph m n).2 = some a →
      ∀ b ∈ m.defaultAddrs ++ m.customAddrs,
        b ≠ a ∧ ((RefModel.getProfileByName ph m n).1.write a v).read b = ph.read b)
    ∧ (∀ a v, (RefModel.getCustomProfileByName ph m n).2 = some a →
      ∀ b ∈ m.defaultAddrs ++ m.customAddrs,
        b ≠ a ∧ ((RefModel.getCustomProfileByName ph m n).1.write a v).read b = ph.read b)
    ∧ RefModel.getSettings m = m.settingsAddr
    ∧ RefModel.getCustomProfiles m = m.customAddrs
    ∧ RefModel.getAllProfiles m = m.defaultAddrs ++ m.customAddrs := by
  refine ⟨?_, ?_, rfl, rfl, rfl⟩
  · intro a v ha b hb
    obtain ⟨hafresh, hagree⟩ := RefModel.getProfileByName_fresh ph m n a ha
    have hblt : b < ph.cells.length := hwf b hb
    have hneq : b ≠ a := by omega
    refine ⟨hneq, ?_⟩
    rw [RefModel.Heap.read_write_ne _ _ _ _ (fun hab => hneq hab.symm)]
    exact hagree b hblt
  · intro a v ha b hb
    obtain ⟨hafresh, hagree⟩ := RefModel.getCustomProfileByName_fresh ph m n a ha
    have hblt : b < ph.cells.length := hwf b hb
    have hneq : b ≠ a := by omega
    refine ⟨hneq, ?_⟩
    rw [RefModel.Heap.read_write_ne _ _ _ _ (fun hab => hneq hab.symm)]
    exact hagree b hblt

/-- C1 witness: a concrete well-formed one-profile heap on which the lookup
hit allocates address 1 and mutating it leaves the stored profile at
address 0 unchanged. -/
theorem C1_amended_copy_isolation_witness :
    RefModel.MirrorRefs.wf { settingsAddr := 0, defaultAddrs := [], customAddrs := [0] }
      { cells := [profileA] }
    ∧ (RefModel.getProfileByName { cells := [profileA] }
        { settingsAddr := 0, defaultAddrs := [], customAddrs := [0] } "A").2 = some 1
    ∧ ((RefModel.getProfileByName { cells := [profileA] }
        { settingsAddr := 0, defaultAddrs := [], customAddrs := [0] } "A").1.write 1 profileB).read 0
      = RefModel.Heap.read { cells := [profileA] } 0 := by
  refine ⟨by unfold RefModel.MirrorRefs.wf; decide, by decide, ?_⟩
  have h := (C1_amended_copy_isolation { cells := [profileA] }
    { settingsAddr := 0, defaultAddrs := [], customAddrs := [0] } "A"
    (by unfold RefModel.MirrorRefs.wf; decide)).1
    1 profileB (by decide) 0 (by decide)
  exact h.2

/-- C4 (counterexample): with a draft present, calling
`setCurrentEditingProfile` with a defined name that matches no custom
profile returns `false` but leaves the previous draft in place: the session
is not idle afterwards, contrary to the claim. -/
theorem C4_miss_counterexample :
    (ConfigService.setCurrentEditingProfile stEditW (some "Zzz")).1 = false
    ∧ (ConfigService.setCurrentEditingProfile stEditW (some "Zzz")).2.currentProfileEdit
      = some profileA1 := by decide

/-- C4 (amended): when the name matches no custom profile the call returns
`false` and resets the captured index to `-1`; the draft is cleared exactly
when the argument is the explicit-clear `undefined`: a defined non-matching
name leaves any prior draft object in place. -/
theorem C4_amended_miss_behavior (st : ConfigState) (name? : Option String)
    (hmiss : ∀ p ∈ st.customProfiles, some p.name ≠ name?) :
    ConfigService.setCurrentEditingProfile st name? =
      (false, { st with
        currentProfileEditIndex := -1,
        currentProfileEdit := if name? = none then none else st.currentProfileEdit }) := by
  cases name? with
  | none =>
    unfold ConfigService.setCurrentEditingProfile ConfigService.setCurrentEditingProfileFind
    dsimp only
    have h : jsFindIndexNat (fun _ : TccProfile => false) st.customProfiles = none :=
      (jsFindIndexNat_eq_none_iff _ _).mpr (fun x _ => rfl)
    rw [h]
    simp
  | some n =>
    unfold ConfigService.setCurrentEditingProfile ConfigService.setCurrentEditingProfileFind
    dsimp only
    have h : jsFindIndexNat (fun e : TccProfile => e.name == n) st.customProfiles = none := by
      apply (jsFindIndexNat_eq_none_iff _ _).mpr
      intro x hx
      have hne := hmiss x hx
      simp only [ne_eq, Option.some.injEq] at hne
      simpa using hne
    rw [h]
    simp

/-- C4 witness: a concrete miss with a defined name on a state holding a
draft. -/
theorem C4_amended_miss_behavior_witness :
    ConfigService.setCurrentEditingProfile stEditW (some "Zzz") =
      (false, { stEditW with
        currentProfileEditIndex := -1,
        currentProfileEdit := stEditW.currentProfileEdit }) := by
  have h := C4_amended_miss_behavior stEditW (some "Zzz") (by decide)
  exact h.trans (by decide)

/-- C5: `editProfileChanges` returns `false` whenever no draft is set; with
a draft set it returns `true` exactly when the draft differs by structural
equality from the custom profile stored at the captured index (absent when
out of bounds); and it returns `false` immediately after a successful
`setCurrentEditingProfile` on an existing custom-profile name. -/
theorem C5_editProfileChanges_diff (st : ConfigState) :
    (st.currentProfileEdit = none → ConfigService.editProfileChanges st = false)
    ∧ (∀ draft, st.currentProfileEdit = some draft →
        (ConfigService.editProfileChanges st = true ↔
          some draft ≠ jsIndexGet st.customProfiles st.currentProfileEditIndex))
    ∧ (∀ n res st', ConfigService.setCurrentEditingProfile st (some n) = (res, st') →
        res = true → ConfigService.editProfileChanges st' = false) := by
  refine ⟨?_, ?_, ?_⟩
  · intro h
    unfold ConfigService.editProfileChanges
    rw [h]
  · intro draft h
    unfold ConfigService.editProfileChanges
    rw [h]
    simp
  · intro n res st' hcall hres
    subst hres
    unfold ConfigService.setCurrentEditingProfile ConfigService.setCurrentEditingProfileFind at hcall
    dsimp only at hcall
    cases hfind : jsFindIndexNat (fun e : TccProfile => e.name == n) st.customProfiles with
    | none =>
      rw [hfind] at hcall
      cases hcall
    | some i =>
      rw [hfind] at hcall
      have hst' : st' = { st with
          currentProfileEditIndex := (i : Int),
          currentProfileEdit := st.customProfiles.get? i } := by
        have hc2 := congrArg Prod.snd hcall
        simpa using hc2.symm
      subst hst'
      unfold ConfigService.editProfileChanges
      dsimp only
      cases hget : st.customProfiles.get? i with
      | none => simp [hget]
      | some p =>
        simp only [hget]
        rw [jsIndexGet_ofNat, hget]
        simp

/-- C5 witness: on the editing fixture, the draft is set and the diff
criterion is exactly structural difference at the captured index. -/
theorem C5_editProfileChanges_diff_witness :
    stEditW.currentProfileEdit = some profileA1
    ∧ (ConfigService.editProfileChanges stEditW = true ↔
        some profileA1 ≠ jsIndexGet stEditW.customProfiles stEditW.currentProfileEditIndex) :=
  ⟨rfl, (C5_editProfileChanges_diff stEditW).2.1 profileA1 rfl⟩

/-- C10: with a draft set but the captured index outside the bounds of the
custom collection (negative, or at least its length), `editProfileChanges`
is total and returns `true`: the lookup at the stale index yields no
profile, and a defined draft always differs from an absent one. -/
theorem C10_editProfileChanges_stale_total (st : ConfigState) (draft : TccProfile)
    (hdraft : st.currentProfileEdit = some draft)
    (hidx : st.currentProfileEditIndex < 0
      ∨ (st.customProfiles.length : Int) ≤ st.currentProfileEditIndex) :
    ConfigService.editProfileChanges st = true := by
  unfold ConfigService.editProfileChanges
  rw [hdraft]
  have hnone : jsIndexGet st.customProfiles st.currentProfileEditIndex = none := by
    unfold jsIndexGet
    rcases hidx with hlt | hge
    · rw [if_neg (by omega)]
    · rw [if_pos (by omega)]
      exact List.get?_eq_none.mpr (by omega)
  rw [hnone]
  simp

/-- C10 witness: a draft captured at index 5 of a two-element collection. -/
theorem C10_editProfileChanges_stale_total_witness :
    ConfigService.editProfileChanges { stEditW with currentProfileEditIndex := 5 } = true :=
  C10_editProfileChanges_stale_total _ profileA1 (by decide) (by decide)

/-- Bridge between the bounded, executable phrasing of "any custom profile
named `pn` sits at index `i`" and its unbounded form. -/
theorem nameAt_iff (l : List TccProfile) (pn : String) (i : Nat) :
    (∀ j, j < l.length → ((l.get? j).map TccProfile.name = some pn → j = i))
    ↔ (∀ j q, l.get? j = some q → q.name = pn → j = i) := by
  constructor
  · intro h j q hjq hname
    exact h j (List.get?_eq_some.mp hjq).1 (by rw [hjq]; simp [hname])
  · intro h j hj hmap
    cases hq : l.get? j with
    | none => rw [hq] at hmap; cases hmap
    | some q =>
      rw [hq] at hmap
      exact h j q hq (Option.some_inj.mp (by simpa using hmap))

/-- C8: `setActiveProfile` stages only the Settings — a copy of the current
Settings whose stateMap maps `stateId` to `profileName` and agrees with the
stored one on every other key — refreshes the State Mirror regardless of
the escalation outcome, and surfaces no error indicator (the whole result
is independent of the escalation outcome). -/
theorem C8_setActiveProfile_spec (env : Env) (escOk : Bool) (st : ConfigState)
    (profileName stateId : String) :
    ((ConfigService.setActiveProfile env escOk st profileName stateId).1.stagedProfiles = none)
    ∧ (∃ s, (ConfigService.setActiveProfile env escOk st profileName stateId).1.stagedSettings
          = some s
        ∧ jsObjGet s.stateMap stateId = some profileName
        ∧ ∀ k, k ≠ stateId → jsObjGet s.stateMap k = jsObjGet st.settings.stateMap k)
    ∧ ((ConfigService.setActiveProfile env escOk st profileName stateId).2
        = ConfigService.updateConfigData env st)
    ∧ (ConfigService.setActiveProfile env escOk st profileName stateId
        = ConfigService.setActiveProfile env (!escOk) st profileName stateId) := by
  refine ⟨rfl,
    ⟨_, rfl, jsObjGet_jsObjSet_self _ _ _, fun k hk => jsObjGet_jsObjSet_ne _ _ _ _ hk⟩,
    rfl, rfl⟩

/-- C8 witness: the spec scenario `assignProfile("Quiet","AC")` on settings
`{stateMap:{AC: Office}}`. -/
theorem C8_setActiveProfile_spec_witness :
    (ConfigService.setActiveProfile envW true stW "Quiet" "AC").1.stagedProfiles = none
    ∧ (ConfigService.setActiveProfile envW true stW "Quiet" "AC").2
      = ConfigService.updateConfigData envW stW
    ∧ (ConfigService.setActiveProfile envW true stW "Quiet" "AC").1.stagedSettings
      = some { stateMap := [("AC", "Quiet")] } := by
  have h := C8_setActiveProfile_spec envW true stW "Quiet" "AC"
  exact ⟨h.1, h.2.2.1, by decide⟩

/-- C7: `copyProfile` fails without staging or escalation when the source
does not resolve or the new name already exists (built-in or custom);
otherwise it stages the custom collection with the renamed deep copy of the
source appended, refreshes the mirror exactly when the escalation succeeds,
and returns the escalation's success. -/
theorem C7_copyProfile_spec (env : Env) (escOk : Bool) (st : ConfigState)
    (src newName : String) :
    (ConfigService.getProfileByName st src = none →
      ConfigService.copyProfile env escOk st src newName = (false, none, st))
    ∧ (ConfigService.getProfileByName st newName ≠ none →
      ConfigService.copyProfile env escOk st src newName = (false, none, st))
    ∧ (∀ p, ConfigService.getProfileByName st src = some p →
        ConfigService.getProfileByName st newName = none →
        ConfigService.copyProfile env escOk st src newName =
          (escOk,
           some { stagedSettings := none,
                  stagedProfiles := some (st.customProfiles ++ [{ p with name := newName }]) },
           if escOk then ConfigService.updateConfigData env st else st)) := by
  refine ⟨?_, ?_, ?_⟩
  · intro h
    unfold ConfigService.copyProfile
    rw [h]
  · intro h
    unfold ConfigService.copyProfile
    cases hsrc : ConfigService.getProfileByName st src with
    | none => rfl
    | some p =>
      cases hnew : ConfigService.getProfileByName st newName with
      | none => exact absurd hnew h
      | some q => rfl
  · intro p hsrc hnew
    unfold ConfigService.copyProfile
    rw [hsrc, hnew]
    rfl

/-- C7 witness: copying the custom profile "A" to the unused name "C". -/
theorem C7_copyProfile_spec_witness :
    ConfigService.copyProfile envW true stW "A" "C" =
      (true,
       some { stagedSettings := none,
              stagedProfiles := some [profileA, profileB, { profileA with name := "C" }] },
       ConfigService.updateConfigData envW stW) := by
  have h := (C7_copyProfile_spec envW true stW "A" "C").2.2 profileA (by decide) (by decide)
  exact h.trans (by decide)

/-- C6: `writeCurrentEditingProfile` returns `false` without staging and
without invoking the escalation helper whenever `editProfileChanges()` is
false; when it is true (with the captured index addressing an entry of the
custom collection), it stages the custom collection with the draft written
at the captured index, escalates, refreshes the mirror exactly when the
escalation succeeds, and returns the escalation's success indicator. -/
theorem C6_writeCurrentEditingProfile_spec (env : Env) (escOk : Bool) (st : ConfigState) :
    (ConfigService.editProfileChanges st = false →
      ConfigService.writeCurrentEditingProfile env escOk st = (false, none, st))
    ∧ (∀ draft, ConfigService.editProfileChanges st = true →
        st.currentProfileEdit = some draft →
        0 ≤ st.currentProfileEditIndex →
        st.currentProfileEditIndex < (st.customProfiles.length : Int) →
        ConfigService.writeCurrentEditingProfile env escOk st =
          (escOk,
           some { stagedSettings := none,
                  stagedProfiles := some
                    (st.customProfiles.set st.currentProfileEditIndex.toNat draft) },
           if escOk then ConfigService.updateConfigData env st else st)) := by
  constructor
  · intro h
    unfold ConfigService.writeCurrentEditingProfile
    rw [h]
    rfl
  · intro draft hchg hdraft h0 hlt
    unfold ConfigService.writeCurrentEditingProfile ConfigService.getCurrentEditingProfile
    rw [hchg, hdraft]
    dsimp only
    rw [show jsSetAt st.customProfiles st.currentProfileEditIndex draft
        = st.customProfiles.set st.currentProfileEditIndex.toNat draft by
      unfold jsSetAt
      rw [if_pos h0]]
    rfl

/-- C6 witness: committing the edited draft `profileA1` over index 0. -/
theorem C6_writeCurrentEditingProfile_spec_witness :
    ConfigService.editProfileChanges stEditW = true
    ∧ ConfigService.writeCurrentEditingProfile envW true stEditW =
      (true,
       some { stagedSettings := none, stagedProfiles := some [profileA1, profileB] },
       ConfigService.updateConfigData envW stEditW) := by
  refine ⟨by decide, ?_⟩
  have h := (C6_writeCurrentEditingProfile_spec envW true stEditW).2 profileA1
    (by decide) (by decide) (by decide) (by decide)
  exact h.trans (by decide)

/-- C9: when `currentProfileName` matches no custom profile, `writeProfile`
does not fail with a not-found result: it stages the unchanged custom
collection together with a Settings copy in which every state of `states`
(when provided) is remapped to `profile.name`, escalates, refreshes exactly
on success, and resolves with the escalation's success indicator. -/
theorem C9_writeProfile_noCurrentMatch (env : Env) (escOk : Bool) (st : ConfigState)
    (currentProfileName : String) (profile : TccProfile) (states : Option (List String))
    (hmiss : ∀ p ∈ st.customProfiles, p.name ≠ currentProfileName) :
    (ConfigService.writeProfile env escOk st currentProfileName profile states).1 = escOk
    ∧ (ConfigService.writeProfile env escOk st currentProfileName profile states).2.1.stagedProfiles
      = some st.customProfiles
    ∧ (∃ s, (ConfigService.writeProfile env escOk st currentProfileName profile states).2.1.stagedSettings
        = some s
        ∧ ∀ k, jsObjGet s.stateMap k =
            match states with
            | none => jsObjGet st.settings.stateMap k
            | some stateIds =>
              if k ∈ stateIds then some profile.name else jsObjGet st.settings.stateMap k)
    ∧ (ConfigService.writeProfile env escOk st currentProfileName profile states).2.2
      = (if escOk then ConfigService.updateConfigData env st else st) := by
  have hfind : jsFindIndexNat (fun p => p.name == currentProfileName) st.customProfiles
      = none := by
    apply (jsFindIndexNat_eq_none_iff _ _).mpr
    intro x hx
    simpa using hmiss x hx
  have hcond : ConfigService.willOverwriteCheck st currentProfileName profile.name = false := by
    unfold ConfigService.willOverwriteCheck
    rw [(jsFindIndex_eq_neg_one_iff _ _).mpr hfind]
    simp
  rw [writeProfile_eq]
  refine ⟨rfl, ?_, ⟨_, rfl, ?_⟩, rfl⟩
  · simp [hcond]
  · intro k
    cases states with
    | none => rfl
    | some stateIds =>
      dsimp only
      rw [jsObjGet_foldl_jsObjSet]

/-- C9 witness: writing under an unknown current name with a state
remapping still resolves with the escalation result and stages the
unchanged collection. -/
theorem C9_writeProfile_noCurrentMatch_witness :
    (ConfigService.writeProfile envW true stW "Nope" profileB (some ["AC"])).1 = true
    ∧ (ConfigService.writeProfile envW true stW "Nope" profileB (some ["AC"])).2.1.stagedProfiles
      = some stW.customProfiles
    ∧ (ConfigService.writeProfile envW true stW "Nope" profileB (some ["AC"])).2.1.stagedSettings
      = some { stateMap := [("AC", "B")] } := by
  have h := C9_writeProfile_noCurrentMatch envW true stW "Nope" profileB (some ["AC"])
    (by decide)
  exact ⟨h.1, h.2.1, by decide⟩

/-- C2: in the staged custom collection of `writeProfile`, the profile at
the index resolved from `currentProfileName` is replaced by `profile` when
the three checks pass — the current name resolves to a custom index, no
built-in profile carries `profile.name`, and any custom profile carrying
`profile.name` sits at that same index (so a no-op rename is permitted) —
and the collection is staged unchanged in every other case (assuming
custom-profile names are duplicate-free, the documented catalog
invariant). -/
theorem C2_writeProfile_overwrite (env : Env) (escOk : Bool) (st : ConfigState)
    (currentProfileName : String) (profile : TccProfile) (states : Option (List String))
    (hnodup : (st.customProfiles.map TccProfile.name).Nodup) :
    (jsFindIndexNat (fun p => p.name == currentProfileName) st.customProfiles = none →
      (ConfigService.writeProfile env escOk st currentProfileName profile states).2.1.stagedProfiles
        = some st.customProfiles)
    ∧ (∀ i, jsFindIndexNat (fun p => p.name == currentProfileName) st.customProfiles = some i →
        (((∀ q ∈ st.defaultProfiles, q.name ≠ profile.name)
           ∧ (∀ j, j < st.customProfiles.length →
               ((st.customProfiles.get? j).map TccProfile.name = some profile.name → j = i))) →
          (ConfigService.writeProfile env escOk st currentProfileName profile states).2.1.stagedProfiles
            = some (st.customProfiles.set i profile))
        ∧ ((¬ ((∀ q ∈ st.defaultProfiles, q.name ≠ profile.name)
           ∧ (∀ j, j < st.customProfiles.length →
               ((st.customProfiles.get? j).map TccProfile.name = some profile.name → j = i)))) →
          (ConfigService.writeProfile env escOk st currentProfileName profile states).2.1.stagedProfiles
            = some st.customProfiles)) := by
  rw [writeProfile_eq]
  constructor
  · intro hfind
    have hcond : ConfigService.willOverwriteCheck st currentProfileName profile.name = false := by
      unfold ConfigService.willOverwriteCheck
      rw [(jsFindIndex_eq_neg_one_iff _ _).mpr hfind]
      simp
    simp [hcond]
  · intro i hfind
    constructor
    · intro hok
      have hcond : ConfigService.willOverwriteCheck st currentProfileName profile.name = true :=
        (willOverwriteCheck_iff st currentProfileName profile.name hnodup).mpr
          ⟨i, hfind, hok.1, (nameAt_iff _ _ _).mp hok.2⟩
      have hidx := jsFindIndex_of_nat _ _ _ hfind
      simp [hcond, hidx, jsSetAt_ofNat]
    · intro hnot
      have hcond : ConfigService.willOverwriteCheck st currentProfileName profile.name = false := by
        cases hb : ConfigService.willOverwriteCheck st currentProfileName profile.name
        · rfl
        · exfalso
          obtain ⟨i2, hi2, hdef, hany⟩ :=
            (willOverwriteCheck_iff st currentProfileName profile.name hnodup).mp hb
          have hii : i2 = i := Option.some_inj.mp (hi2.symm.trans hfind)
          subst hii
          exact hnot ⟨hdef, (nameAt_iff _ _ _).mpr hany⟩
      simp [hcond]

/-- C2 witness: the no-op rename `writeProfile("A", {name:"A", ...})`
replaces index 0 of the staged collection. -/
theorem C2_writeProfile_overwrite_witness :
    (ConfigService.writeProfile envW true stW "A" profileA1 none).2.1.stagedProfiles
      = some (stW.customProfiles.set 0 profileA1) :=
  ((C2_writeProfile_overwrite envW true stW "A" profileA1 none (by decide)).2
    0 (by decide)).1 ⟨by decide, by decide⟩

/-- C3 (counterexample): renaming custom "A" to "B" with a distinct custom
profile "B" present does keep the profile content unchanged, but the
operation does not fail: with a succeeding escalation its result is `true`,
not `false` as the claim states. -/
theorem C3_collision_result_counterexample :
    (ConfigService.writeProfile envW true stW "A" { name := "B", data := "z" } none).1 = true
    ∧ (ConfigService.writeProfile envW true stW "A"
        { name := "B", data := "z" } none).2.1.stagedProfiles
      = some stW.customProfiles := by decide

/-- C3 (amended): when `profile.name` collides with a different existing
profile (built-in anywhere, or custom at a different index than the one
being edited), `writeProfile` refuses the replacement — the custom
collection is staged unchanged, so the stored custom profile keeps its
prior field values — but the operation does not necessarily fail: it still
stages and escalates, and resolves with the escalation's success
indicator. -/
theorem C3_amended_collision_blocks (env : Env) (escOk : Bool) (st : ConfigState)
    (currentProfileName : String) (profile : TccProfile) (states : Option (List String))
    (i : Nat)
    (hnodup : (st.customProfiles.map TccProfile.name).Nodup)
    (hcur : jsFindIndexNat (fun p => p.name == currentProfileName) st.customProfiles = some i)
    (hcollide : (∃ q ∈ st.defaultProfiles, q.name = profile.name)
      ∨ (∃ j q, st.customProfiles.get? j = some q ∧ q.name = profile.name ∧ j ≠ i)) :
    (ConfigService.writeProfile env escOk st currentProfileName profile states).2.1.stagedProfiles
      = some st.customProfiles
    ∧ (ConfigService.writeProfile env escOk st currentProfileName profile states).1 = escOk := by
  have hcond : ConfigService.willOverwriteCheck st currentProfileName profile.name = false := by
    cases hb : ConfigService.willOverwriteCheck st currentProfileName profile.name
    · rfl
    · exfalso
      obtain ⟨i2, hi2, hdef, hany⟩ :=
        (willOverwriteCheck_iff st currentProfileName profile.name hnodup).mp hb
      have hii : i2 = i := Option.some_inj.mp (hi2.symm.trans hcur)
      subst hii
      rcases hcollide with ⟨q, hq, hqname⟩ | ⟨j, q, hjq, hqname, hji⟩
      · exact hdef q hq hqname
      · exact hji (hany j q hjq hqname)
  rw [writeProfile_eq]
  exact ⟨by simp [hcond], rfl⟩

/-- C3 witness: the concrete collision of the counterexample, through the
amended statement. -/
theorem C3_amended_collision_blocks_witness :
    (ConfigService.writeProfile envW true stW "A"
        { name := "B", data := "z" } none).2.1.stagedProfiles
      = some stW.customProfiles
    ∧ (ConfigService.writeProfile envW true stW "A" { name := "B", data := "z" } none).1
      = true :=
  C3_amended_collision_blocks envW true stW "A" { name := "B", data := "z" } none 0
    (by decide) (by decide)
    (Or.inr ⟨1, profileB, by decide, by decide, by decide⟩)
